import Mathlib

/-
Verification of the element/field marshaling engine and the attachment
lifecycle of the exchangelib snapshot (src/exchangelib/properties.py and
src/exchangelib/attachments.py).

The embedding translates the Python source into executable Lean
definitions.  XML elements are modelled as a small tree type mirroring
xml.etree (tag, attributes, text, children).  Stateful methods
(`attach`, `detach`, the lazy `content` getter) become explicit step
functions that take the object's state plus the already-decoded reply
of the external service-call collaborator and return the result, the
post state, and the number of collaborator calls made.  Parts of the
repository that are not in src/ (fields.py codecs, services.py
namespace constants, util.py element construction) are modelled from
the spec and marked as such in their doc comments.
-/

set_option autoImplicit false

namespace EWS

/-- XML element mirroring the subset of xml.etree used by the source:
a qualified tag, attributes, text content and child elements. -/
inductive Elem : Type where
  | mk : String → List (String × String) → String → List Elem → Elem

def Elem.tag : Elem → String
  | .mk t _ _ _ => t

def Elem.attrs : Elem → List (String × String)
  | .mk _ a _ _ => a

def Elem.text : Elem → String
  | .mk _ _ x _ => x

def Elem.children : Elem → List Elem
  | .mk _ _ _ c => c

/-- Lookup of an attribute by name, mirroring `elem.get(name)`. -/
def Elem.getAttr (e : Elem) (n : String) : Option String :=
  (e.attrs.find? (fun kv => kv.1 == n)).map (fun kv => kv.2)

/-- Search of direct children by tag, mirroring `elem.find(tag)`. -/
def findChild (e : Elem) (t : String) : Option Elem :=
  e.children.find? (fun c => c.tag == t)

/-- Modelled from the spec: the "types" namespace constant `TNS` lives in
services.py, which is not in src/; the spec fixes two XML namespaces
(section 6). -/
def TNS : String := "http://schemas.microsoft.com/exchange/services/2006/types"

/-- Modelled from the spec: the "messages" namespace constant `MNS` from
services.py (not in src/). -/
def MNS : String := "http://schemas.microsoft.com/exchange/services/2006/messages"

/-- Namespace-qualified tag in the `\x7bnamespace\x7dName` response form used
by `response_tag()` in properties.py. -/
def qual (ns n : String) : String := "\x7b" ++ ns ++ "\x7d" ++ n

/-- Qualified tag in the types namespace. -/
def qualT (n : String) : String := qual TNS n

/-- Modelled from the spec: util.py's `create_element` (not in src/)
resolves the fixed two-letter prefix of a request tag to its namespace
(spec section 6: element tags are namespace-prefixed by a fixed
two-letter convention denoting one of the two fixed namespaces). -/
def resolveTag (s : String) : String :=
  match s.data with
  | 't' :: ':' :: rest => qual TNS (String.mk rest)
  | 'm' :: ':' :: rest => qual MNS (String.mk rest)
  | _ => s

/-- Request tag of a class, mirroring `EWSElement.request_tag`:
the dict lookup over the two namespaces. -/
def requestTagOf (ns n : String) : String :=
  if ns = TNS then "t:" ++ n else "m:" ++ n

/-- Response tag of a class, mirroring `EWSElement.response_tag`. -/
def responseTagOf (ns n : String) : String := qual ns n

/-- Value of one base64 alphabet character. -/
def b64charVal (c : Char) : Option Nat :=
  if 'A' ≤ c ∧ c ≤ 'Z' then some (c.toNat - 65)
  else if 'a' ≤ c ∧ c ≤ 'z' then some (c.toNat - 97 + 26)
  else if '0' ≤ c ∧ c ≤ '9' then some (c.toNat - 48 + 52)
  else if c = '+' then some 62
  else if c = '/' then some 63
  else none

/-- Regroup base64 sextets into bytes. -/
def b64group : List Nat → List Nat
  | a :: b :: c :: d :: rest =>
      (a * 4 + b / 16) :: ((b % 16) * 16 + c / 4) :: ((c % 4) * 64 + d) :: b64group rest
  | [a, b] => [a * 4 + b / 16]
  | [a, b, c] => [a * 4 + b / 16, (b % 16) * 16 + c / 4]
  | _ => []

/-- Base64 decoding of element text, as done by the stdlib
`base64.b64decode` call in FileAttachment.content; bytes are modelled
as lists of naturals.  Empty text decodes to empty bytes. -/
def b64decode (s : String) : List Nat :=
  b64group (s.data.filterMap b64charVal)

/-- Data slots of an ItemId-like identity: `id` and `changekey`
(properties.py, ItemId.__slots__). -/
structure ItemIdData where
  id : Option String
  changekey : Option String
deriving DecidableEq

/-- Class-level constants distinguishing ItemId and its subclasses
(ELEMENT_NAME, NAMESPACE, ID_ATTR, CHANGEKEY_ATTR). -/
structure IdCls where
  element_name : String
  ns : String
  id_attr : String
  changekey_attr : String
deriving DecidableEq

/-- `ItemId` class constants (properties.py). -/
def ItemIdCls : IdCls := ⟨"ItemId", TNS, "Id", "ChangeKey"⟩

/-- `ParentItemId` class constants (properties.py). -/
def ParentItemIdCls : IdCls := ⟨"ParentItemId", MNS, "Id", "ChangeKey"⟩

/-- `RootItemId` class constants (properties.py). -/
def RootItemIdCls : IdCls := ⟨"RootItemId", MNS, "RootItemId", "RootItemChangeKey"⟩

/-- `ItemId.__eq__`: comparison against None is False, otherwise direct
field comparison of `id` and `changekey`, ignoring the classes of both
operands.  An instance is a class descriptor paired with its data. -/
def itemIdEq (x : IdCls × ItemIdData) (other : Option (IdCls × ItemIdData)) : Bool :=
  match other with
  | none => false
  | some y => (x.2.id == y.2.id) && (x.2.changekey == y.2.changekey)

/-- Modelled from the spec: the per-field validator `SimpleField.clean`
lives in fields.py (not in src/); for the two required string fields of
an identity it raises a validation error when the value is absent and
returns the value unchanged otherwise (spec section 4.1/4.2). -/
def itemIdClean (d : ItemIdData) : Except String ItemIdData :=
  match d.id, d.changekey with
  | some _, some _ => .ok d
  | _, _ => .error "required"

/-- `ItemId.to_xml`: clean, then create the request element and set the
two identity attributes (properties.py lines 219-225). -/
def itemId_to_xml (c : IdCls) (d : ItemIdData) : Except String Elem :=
  match itemIdClean d with
  | .error m => .error m
  | .ok _ =>
    match d.id, d.changekey with
    | some i, some k =>
        .ok (Elem.mk (resolveTag (requestTagOf c.ns c.element_name))
          [(c.id_attr, i), (c.changekey_attr, k)] "" [])
    | _, _ => .error "required"

/-- `ItemId.from_xml`: None maps to None; the tag assertion must hold;
the two attributes are read back (properties.py lines 227-234). -/
def itemId_from_xml (c : IdCls) (e : Option Elem) : Except String (Option ItemIdData) :=
  match e with
  | none => .ok none
  | some e =>
    if e.tag = responseTagOf c.ns c.element_name then
      .ok (some ⟨e.getAttr c.id_attr, e.getAttr c.changekey_attr⟩)
    else .error "tag"

/-- C7: equality of two identity objects holds iff both the id fields and
the change-token fields match exactly; any difference in either field
makes them unequal. -/
theorem itemId_eq_iff (c1 c2 : IdCls) (a b : ItemIdData) :
    itemIdEq (c1, a) (some (c2, b)) = true ↔ (a.id = b.id ∧ a.changekey = b.changekey) := by
  simp [itemIdEq]

/-- C7 witness: equal field strings compare equal; a one-character
difference in the change-token makes the pair unequal. -/
theorem itemId_eq_iff_witness :
    itemIdEq (ItemIdCls, ⟨some "a1", some "b1"⟩) (some (ItemIdCls, ⟨some "a1", some "b1"⟩))
      = true ∧
    itemIdEq (ItemIdCls, ⟨some "a1", some "b1"⟩) (some (ItemIdCls, ⟨some "a1", some "b2"⟩))
      ≠ true :=
  ⟨(itemId_eq_iff ItemIdCls ItemIdCls ⟨some "a1", some "b1"⟩ ⟨some "a1", some "b1"⟩).mpr
      ⟨rfl, rfl⟩,
   fun h => absurd
     ((itemId_eq_iff ItemIdCls ItemIdCls ⟨some "a1", some "b1"⟩ ⟨some "a1", some "b2"⟩).mp h).2
     (by decide)⟩

/-- C10: identity equality ignores the concrete class: an item identity
and a root-item (or parent-item) identity with the same field data
compare equal even though the classes encode to different wire tags,
and comparing an identity with None yields false rather than an error. -/
theorem itemId_eq_ignores_class (c1 c2 : IdCls) (a b : ItemIdData)
    (h1 : a.id = b.id) (h2 : a.changekey = b.changekey) :
    itemIdEq (c1, a) (some (c2, b)) = true ∧
    itemIdEq (c1, a) none = false ∧
    responseTagOf ItemIdCls.ns ItemIdCls.element_name ≠
      responseTagOf RootItemIdCls.ns RootItemIdCls.element_name ∧
    responseTagOf ItemIdCls.ns ItemIdCls.element_name ≠
      responseTagOf ParentItemIdCls.ns ParentItemIdCls.element_name := by
  refine ⟨by simp [itemIdEq, h1, h2], rfl, ?_, ?_⟩ <;> decide

/-- C10 witness: an ItemId and a RootItemId carrying identical strings
compare equal, comparison with None is false, and the wire tags differ. -/
theorem itemId_eq_ignores_class_witness :
    itemIdEq (ItemIdCls, ⟨some "AAMkAD", some "DwAAABYA"⟩)
        (some (RootItemIdCls, ⟨some "AAMkAD", some "DwAAABYA"⟩)) = true ∧
    itemIdEq (ItemIdCls, ⟨some "AAMkAD", some "DwAAABYA"⟩) none = false ∧
    responseTagOf ItemIdCls.ns ItemIdCls.element_name ≠
      responseTagOf RootItemIdCls.ns RootItemIdCls.element_name ∧
    responseTagOf ItemIdCls.ns ItemIdCls.element_name ≠
      responseTagOf ParentItemIdCls.ns ParentItemIdCls.element_name :=
  itemId_eq_ignores_class ItemIdCls RootItemIdCls
    ⟨some "AAMkAD", some "DwAAABYA"⟩ ⟨some "AAMkAD", some "DwAAABYA"⟩ rfl rfl

/-- Slots of AttachmentId (attachments.py): `id`, `root_id`,
`root_changekey`. -/
structure AttachmentIdR where
  id : Option String
  root_id : Option String
  root_changekey : Option String
deriving DecidableEq

/-- Lifecycle-relevant state of a parent Item: its identity fields and
whether an account is bound (only truthiness of `account` is read by
attachments.py). -/
structure Item where
  item_id : Option String
  changekey : Option String
  account : Bool
deriving DecidableEq

/-- Lifecycle-relevant slots of an Attachment instance:
`parent_item` and `attachment_id` (shared by FileAttachment and
ItemAttachment; their extra slots play no role in attach/detach). -/
structure AttachmentSt where
  parent_item : Option Item
  attachment_id : Option AttachmentIdR
deriving DecidableEq

/-- Errors raised by the attachment operations: the ValueError
preconditions, the assert statements, and re-raised per-item errors of
the collaborator. -/
inductive OpErr : Type where
  | alreadyCreated
  | notCreated
  | parentNoAccount
  | mustHaveAccount
  | lenAssert
  | remote
  | attrOnNone
  | rootIdAssert
  | changekeyAssert
  | tupleAssert
deriving DecidableEq

instance : DecidableEq (Except OpErr Unit) := fun a b =>
  match a, b with
  | .ok (), .ok () => .isTrue rfl
  | .error x, .error y => if h : x = y then .isTrue (by rw [h]) else .isFalse (by simp [h])
  | .ok _, .error _ => .isFalse (by simp)
  | .error _, .ok _ => .isFalse (by simp)

/-- Outcome of `attach`: the raised error or unit, the post state of the
attachment (the mutated parent stays referenced), and how many calls
were made to the CreateAttachment collaborator. -/
structure AttachOut where
  res : Except OpErr Unit
  att : AttachmentSt
  calls : Nat
deriving DecidableEq

/-- `Attachment.attach` (attachments.py lines 66-87).  The collaborator
reply is passed in already decoded, per the spec's collaborator
contract (each element either a decoded entity or an error); each reply
entity is represented by its `attachment_id` slot, the only part read.
`Except.ok none` stands for a decoded attachment without an
attachment_id, on which the `.root_id` access would fail. -/
def attach (a : AttachmentSt) (resp : List (Except Unit (Option AttachmentIdR))) : AttachOut :=
  match a.attachment_id with
  | some _ => ⟨.error .alreadyCreated, a, 0⟩
  | none =>
    match a.parent_item with
    | none => ⟨.error .parentNoAccount, a, 0⟩
    | some p =>
      if p.account then
        match resp with
        | [.error _] => ⟨.error .remote, a, 1⟩
        | [.ok none] => ⟨.error .attrOnNone, a, 1⟩
        | [.ok (some aid)] =>
          if aid.root_id = p.item_id then
            if aid.root_changekey = p.changekey then
              ⟨.error .changekeyAssert, a, 1⟩
            else
              ⟨.ok (),
                { parent_item := some { p with changekey := aid.root_changekey },
                  attachment_id := some { aid with root_id := none, root_changekey := none } }, 1⟩
          else ⟨.error .rootIdAssert, a, 1⟩
        | _ => ⟨.error .lenAssert, a, 1⟩
      else ⟨.error .parentNoAccount, a, 0⟩

/-- Outcome of `detach`: additionally exposes the parent Item object the
attachment referenced on entry, after any mutation, since detach clears
the back-reference while the caller keeps the Item. -/
structure DetachOut where
  res : Except OpErr Unit
  att : AttachmentSt
  parentObj : Option Item
  calls : Nat
deriving DecidableEq

/-- `Attachment.detach` (attachments.py lines 89-107).  The collaborator
reply is the decoded RootItemId of each result (`Except.ok none` stands
for `RootItemId.from_xml` returning None, on which the `.id` access
would fail). -/
def detach (a : AttachmentSt) (resp : List (Except Unit (Option ItemIdData))) : DetachOut :=
  match a.attachment_id with
  | none => ⟨.error .notCreated, a, a.parent_item, 0⟩
  | some _ =>
    match a.parent_item with
    | none => ⟨.error .parentNoAccount, a, none, 0⟩
    | some p =>
      if p.account then
        match resp with
        | [.error _] => ⟨.error .remote, a, some p, 1⟩
        | [.ok none] => ⟨.error .attrOnNone, a, some p, 1⟩
        | [.ok (some rid)] =>
          if rid.id = p.item_id then
            if rid.changekey = p.changekey then
              ⟨.error .changekeyAssert, a, some p, 1⟩
            else
              ⟨.ok (), { parent_item := none, attachment_id := none },
                some { p with changekey := rid.changekey }, 1⟩
          else ⟨.error .rootIdAssert, a, some p, 1⟩
        | _ => ⟨.error .lenAssert, a, some p, 1⟩
      else ⟨.error .parentNoAccount, a, some p, 0⟩

/-- C1: on an unattached attachment whose parent has an account, a
single-result reply whose root id matches the parent and whose root
change-token differs makes attach succeed, store an attachment_id, and
overwrite the parent's change-token with the returned one; on an
already-attached instance attach raises the precondition error with no
collaborator call. -/
theorem attach_lifecycle (a : AttachmentSt) (p : Item) (aid : AttachmentIdR)
    (h0 : a.attachment_id = none) (h1 : a.parent_item = some p) (h2 : p.account = true)
    (h3 : aid.root_id = p.item_id) (h4 : aid.root_changekey ≠ p.changekey)
    (b : AttachmentSt) (hb : b.attachment_id.isSome = true)
    (resp2 : List (Except Unit (Option AttachmentIdR))) :
    (attach a [Except.ok (some aid)]).res = Except.ok () ∧
    (attach a [Except.ok (some aid)]).att.attachment_id.isSome = true ∧
    (attach a [Except.ok (some aid)]).att.parent_item
      = some { p with changekey := aid.root_changekey } ∧
    (attach b resp2).res = Except.error OpErr.alreadyCreated ∧
    (attach b resp2).calls = 0 := by
  obtain ⟨aid', hb'⟩ := Option.isSome_iff_exists.mp hb
  refine ⟨?_, ?_, ?_, ?_, ?_⟩ <;> simp [attach, h0, h1, h2, h3, h4, hb']

/-- C1 witness. -/
theorem attach_lifecycle_witness :
    (attach ⟨some ⟨some "i1", some "ck1", true⟩, none⟩
        [Except.ok (some ⟨some "att1", some "i1", some "ck2"⟩)]).res = Except.ok () ∧
    (attach ⟨some ⟨some "i1", some "ck1", true⟩, none⟩
        [Except.ok (some ⟨some "att1", some "i1", some "ck2"⟩)]).att.attachment_id.isSome = true ∧
    (attach ⟨some ⟨some "i1", some "ck1", true⟩, none⟩
        [Except.ok (some ⟨some "att1", some "i1", some "ck2"⟩)]).att.parent_item
      = some { item_id := some "i1", changekey := some "ck2", account := true } ∧
    (attach ⟨some ⟨some "i1", some "ck1", true⟩, some ⟨some "att0", none, none⟩⟩ []).res
      = Except.error OpErr.alreadyCreated ∧
    (attach ⟨some ⟨some "i1", some "ck1", true⟩, some ⟨some "att0", none, none⟩⟩ []).calls = 0 :=
  attach_lifecycle ⟨some ⟨some "i1", some "ck1", true⟩, none⟩ ⟨some "i1", some "ck1", true⟩
    ⟨some "att1", some "i1", some "ck2"⟩ rfl rfl rfl rfl (by decide)
    ⟨some ⟨some "i1", some "ck1", true⟩, some ⟨some "att0", none, none⟩⟩ rfl []

/-- C2: when the reply's single root-item identity carries a change-token
equal to the parent's current one, or an id different from the parent's
id, attach raises the corresponding assertion error and leaves both the
attachment_id (still absent) and the parent's change-token untouched. -/
theorem attach_consistency (a : AttachmentSt) (p : Item) (aid : AttachmentIdR)
    (h0 : a.attachment_id = none) (h1 : a.parent_item = some p) (h2 : p.account = true)
    (h3 : aid.root_changekey = p.changekey ∨ aid.root_id ≠ p.item_id) :
    ((attach a [Except.ok (some aid)]).res = Except.error OpErr.changekeyAssert ∨
     (attach a [Except.ok (some aid)]).res = Except.error OpErr.rootIdAssert) ∧
    (attach a [Except.ok (some aid)]).att = a ∧
    (attach a [Except.ok (some aid)]).att.attachment_id = none ∧
    (attach a [Except.ok (some aid)]).att.parent_item = some p := by
  by_cases hid : aid.root_id = p.item_id
  · rcases h3 with h3 | h3
    · have hatt : (attach a [Except.ok (some aid)]).att = a := by
        simp [attach, h0, h1, h2, hid, h3]
      exact ⟨Or.inl (by simp [attach, h0, h1, h2, hid, h3]), hatt,
        by rw [hatt]; exact h0, by rw [hatt]; exact h1⟩
    · exact absurd hid h3
  · have hatt : (attach a [Except.ok (some aid)]).att = a := by
      simp [attach, h0, h1, h2, hid]
    exact ⟨Or.inr (by simp [attach, h0, h1, h2, hid]), hatt,
      by rw [hatt]; exact h0, by rw [hatt]; exact h1⟩

/-- C2 witness. -/
theorem attach_consistency_witness :
    ((attach ⟨some ⟨some "i1", some "ck1", true⟩, none⟩
        [Except.ok (some ⟨some "att1", some "i1", some "ck1"⟩)]).res
        = Except.error OpErr.changekeyAssert ∨
     (attach ⟨some ⟨some "i1", some "ck1", true⟩, none⟩
        [Except.ok (some ⟨some "att1", some "i1", some "ck1"⟩)]).res
        = Except.error OpErr.rootIdAssert) ∧
    (attach ⟨some ⟨some "i1", some "ck1", true⟩, none⟩
        [Except.ok (some ⟨some "att1", some "i1", some "ck1"⟩)]).att
      = ⟨some ⟨some "i1", some "ck1", true⟩, none⟩ ∧
    (attach ⟨some ⟨some "i1", some "ck1", true⟩, none⟩
        [Except.ok (some ⟨some "att1", some "i1", some "ck1"⟩)]).att.attachment_id = none ∧
    (attach ⟨some ⟨some "i1", some "ck1", true⟩, none⟩
        [Except.ok (some ⟨some "att1", some "i1", some "ck1"⟩)]).att.parent_item
      = some ⟨some "i1", some "ck1", true⟩ :=
  attach_consistency ⟨some ⟨some "i1", some "ck1", true⟩, none⟩ ⟨some "i1", some "ck1", true⟩
    ⟨some "att1", some "i1", some "ck1"⟩ rfl rfl rfl (Or.inl rfl)

/-- C3: on an attached attachment whose parent has an account, a
single-result reply whose id matches the parent and whose change-token
differs makes detach update the parent's change-token, then clear both
the attachment_id and the parent reference; detach on an unattached
attachment raises the precondition error. -/
theorem detach_lifecycle (a : AttachmentSt) (p : Item) (aid : AttachmentIdR) (rid : ItemIdData)
    (h0 : a.attachment_id = some aid) (h1 : a.parent_item = some p) (h2 : p.account = true)
    (h3 : rid.id = p.item_id) (h4 : rid.changekey ≠ p.changekey)
    (b : AttachmentSt) (hb : b.attachment_id = none)
    (resp2 : List (Except Unit (Option ItemIdData))) :
    (detach a [Except.ok (some rid)]).res = Except.ok () ∧
    (detach a [Except.ok (some rid)]).att.attachment_id = none ∧
    (detach a [Except.ok (some rid)]).att.parent_item = none ∧
    (detach a [Except.ok (some rid)]).parentObj
      = some { p with changekey := rid.changekey } ∧
    (detach b resp2).res = Except.error OpErr.notCreated := by
  refine ⟨?_, ?_, ?_, ?_, ?_⟩ <;> simp [detach, h0, h1, h2, h3, h4, hb]

/-- C3 witness. -/
theorem detach_lifecycle_witness :
    (detach ⟨some ⟨some "i1", some "ck1", true⟩, some ⟨some "att1", none, none⟩⟩
        [Except.ok (some ⟨some "i1", some "ck2"⟩)]).res = Except.ok () ∧
    (detach ⟨some ⟨some "i1", some "ck1", true⟩, some ⟨some "att1", none, none⟩⟩
        [Except.ok (some ⟨some "i1", some "ck2"⟩)]).att.attachment_id = none ∧
    (detach ⟨some ⟨some "i1", some "ck1", true⟩, some ⟨some "att1", none, none⟩⟩
        [Except.ok (some ⟨some "i1", some "ck2"⟩)]).att.parent_item = none ∧
    (detach ⟨some ⟨some "i1", some "ck1", true⟩, some ⟨some "att1", none, none⟩⟩
        [Except.ok (some ⟨some "i1", some "ck2"⟩)]).parentObj
      = some { item_id := some "i1", changekey := some "ck2", account := true } ∧
    (detach ⟨some ⟨some "i1", some "ck1", true⟩, none⟩ []).res
      = Except.error OpErr.notCreated :=
  detach_lifecycle ⟨some ⟨some "i1", some "ck1", true⟩, some ⟨some "att1", none, none⟩⟩
    ⟨some "i1", some "ck1", true⟩ ⟨some "att1", none, none⟩ ⟨some "i1", some "ck2"⟩
    rfl rfl rfl rfl (by decide) ⟨some ⟨some "i1", some "ck1", true⟩, none⟩ rfl []

/-- C4: after every successful attach, the stored attachment identity has
its root_id and root_changekey sub-fields set to absent. -/
theorem attach_strips_root (a : AttachmentSt)
    (resp : List (Except Unit (Option AttachmentIdR)))
    (h : (attach a resp).res = Except.ok ()) :
    (attach a resp).att.attachment_id.map AttachmentIdR.root_id = some none ∧
    (attach a resp).att.attachment_id.map AttachmentIdR.root_changekey = some none := by
  unfold attach at h ⊢
  cases ha : a.attachment_id <;> simp [ha] at h ⊢
  cases hp : a.parent_item <;> simp [hp] at h ⊢
  case none.some p =>
    cases hacc : p.account <;> simp [hacc] at h ⊢
    match resp with
    | [] => simp at h
    | [.error _] => simp at h
    | [.ok none] => simp at h
    | [.ok (some aid)] =>
      by_cases hid : aid.root_id = p.item_id <;>
        by_cases hck : aid.root_changekey = p.changekey <;>
        simp [hid, hck] at h ⊢
    | r1 :: r2 :: rest => simp at h

/-- C4 witness. -/
theorem attach_strips_root_witness :
    (attach ⟨some ⟨some "i1", some "ck1", true⟩, none⟩
        [Except.ok (some ⟨some "att1", some "i1", some "ck2"⟩)]).att.attachment_id.map
      AttachmentIdR.root_id = some none ∧
    (attach ⟨some ⟨some "i1", some "ck1", true⟩, none⟩
        [Except.ok (some ⟨some "att1", some "i1", some "ck2"⟩)]).att.attachment_id.map
      AttachmentIdR.root_changekey = some none :=
  attach_strips_root ⟨some ⟨some "i1", some "ck1", true⟩, none⟩
    [Except.ok (some ⟨some "att1", some "i1", some "ck2"⟩)] rfl

/-- Content-relevant slots of a FileAttachment: the shared lifecycle
slots plus the `_content` cache. -/
structure FileAttSt where
  parent_item : Option Item
  attachment_id : Option AttachmentIdR
  content : Option (List Nat)
deriving DecidableEq

/-- One item of a GetAttachment reply: a per-item exception, a tuple
(rejected by the tuple assert), or a response element. -/
inductive GetItem : Type where
  | exc
  | tup
  | elem (e : Elem)

/-- Outcome of reading `FileAttachment.content`: the returned payload or
raised error, the post state, and the number of GetAttachment calls. -/
structure ContentOut where
  res : Except OpErr (Option (List Nat))
  st : FileAttSt
  calls : Nat

/-- Qualified tag of the Content child element searched by
`FileAttachment.content`. -/
def contentTag : String := qualT "Content"

/-- `FileAttachment.content` getter (attachments.py lines 138-161): no
attachment_id or a non-None cache return locally with no call;
otherwise GetAttachment is called, the single reply element's Content
child is base64-decoded (absent child stores None, present child stores
its decoded text), and the stored value is returned. -/
def contentGet (a : FileAttSt) (resp : List GetItem) : ContentOut :=
  match a.attachment_id with
  | none => ⟨.ok a.content, a, 0⟩
  | some _ =>
    match a.content with
    | some c => ⟨.ok (some c), a, 0⟩
    | none =>
      match a.parent_item with
      | none => ⟨.error .mustHaveAccount, a, 0⟩
      | some p =>
        if p.account then
          match resp with
          | [.exc] => ⟨.error .remote, a, 1⟩
          | [.tup] => ⟨.error .tupleAssert, a, 1⟩
          | [.elem e] =>
            match findChild e contentTag with
            | none => ⟨.ok none, { a with content := none }, 1⟩
            | some v =>
              ⟨.ok (some (b64decode v.text)), { a with content := some (b64decode v.text) }, 1⟩
          | _ => ⟨.error .lenAssert, a, 1⟩
        else ⟨.error .mustHaveAccount, a, 0⟩

/-- C5 counterexample: when the first fetch resolves the payload to
absent (the reply has no Content child), the cached None is not treated
as resolved and a second read issues a second collaborator call, so the
two reads trigger two calls, not one. -/
theorem content_cache_cex :
    (contentGet ⟨some ⟨some "i1", some "ck1", true⟩, some ⟨some "att1", none, none⟩, none⟩
        [GetItem.elem (Elem.mk (qualT "FileAttachment") [] "" [])]).res = Except.ok none ∧
    (contentGet ⟨some ⟨some "i1", some "ck1", true⟩, some ⟨some "att1", none, none⟩, none⟩
        [GetItem.elem (Elem.mk (qualT "FileAttachment") [] "" [])]).calls = 1 ∧
    (contentGet
        (contentGet ⟨some ⟨some "i1", some "ck1", true⟩, some ⟨some "att1", none, none⟩, none⟩
          [GetItem.elem (Elem.mk (qualT "FileAttachment") [] "" [])]).st
        [GetItem.elem (Elem.mk (qualT "FileAttachment") [] "" [])]).calls = 1 := by
  refine ⟨rfl, rfl, rfl⟩

/-- C5 (amended): when the attachment has an id and no cached payload and
the first fetch finds a Content child, that read makes exactly one
collaborator call and caches the decoded bytes; a second read returns
the same value with no further call whatever the collaborator would
reply.  When the fetch finds no Content child the resolved None is not
cached as resolved (see the counterexample). -/
theorem content_cache_amended (a : FileAttSt) (p : Item) (aid : AttachmentIdR) (e v : Elem)
    (resp2 : List GetItem)
    (h0 : a.attachment_id = some aid) (hc : a.content = none)
    (h1 : a.parent_item = some p) (h2 : p.account = true)
    (hv : findChild e contentTag = some v) :
    (contentGet a [GetItem.elem e]).calls = 1 ∧
    (contentGet a [GetItem.elem e]).res = Except.ok (some (b64decode v.text)) ∧
    (contentGet (contentGet a [GetItem.elem e]).st resp2).calls = 0 ∧
    (contentGet (contentGet a [GetItem.elem e]).st resp2).res
      = (contentGet a [GetItem.elem e]).res := by
  refine ⟨?_, ?_, ?_, ?_⟩ <;> simp [contentGet, h0, h1, h2, hc, hv]

/-- C5 witness. -/
theorem content_cache_amended_witness :
    (contentGet ⟨some ⟨some "i1", some "ck1", true⟩, some ⟨some "att1", none, none⟩, none⟩
        [GetItem.elem (Elem.mk (qualT "FileAttachment") [] ""
          [Elem.mk contentTag [] "aGk=" []])]).calls = 1 ∧
    (contentGet ⟨some ⟨some "i1", some "ck1", true⟩, some ⟨some "att1", none, none⟩, none⟩
        [GetItem.elem (Elem.mk (qualT "FileAttachment") [] ""
          [Elem.mk contentTag [] "aGk=" []])]).res
      = Except.ok (some (b64decode "aGk=")) ∧
    (contentGet
        (contentGet ⟨some ⟨some "i1", some "ck1", true⟩, some ⟨some "att1", none, none⟩, none⟩
          [GetItem.elem (Elem.mk (qualT "FileAttachment") [] ""
            [Elem.mk contentTag [] "aGk=" []])]).st []).calls = 0 ∧
    (contentGet
        (contentGet ⟨some ⟨some "i1", some "ck1", true⟩, some ⟨some "att1", none, none⟩, none⟩
          [GetItem.elem (Elem.mk (qualT "FileAttachment") [] ""
            [Elem.mk contentTag [] "aGk=" []])]).st []).res
      = (contentGet ⟨some ⟨some "i1", some "ck1", true⟩, some ⟨some "att1", none, none⟩, none⟩
          [GetItem.elem (Elem.mk (qualT "FileAttachment") [] ""
            [Elem.mk contentTag [] "aGk=" []])]).res :=
  content_cache_amended ⟨some ⟨some "i1", some "ck1", true⟩, some ⟨some "att1", none, none⟩, none⟩
    ⟨some "i1", some "ck1", true⟩ ⟨some "att1", none, none⟩
    (Elem.mk (qualT "FileAttachment") [] "" [Elem.mk contentTag [] "aGk=" []])
    (Elem.mk contentTag [] "aGk=" []) [] rfl rfl rfl rfl (by rfl)

/-- C6: in the lazy payload fetch, a Content child that is present but
empty decodes to empty bytes while a reply with no Content child
decodes to absent, and the two outcomes never compare equal. -/
theorem content_empty_vs_absent (a : FileAttSt) (p : Item) (aid : AttachmentIdR)
    (e1 e2 v : Elem)
    (h0 : a.attachment_id = some aid) (hc : a.content = none)
    (h1 : a.parent_item = some p) (h2 : p.account = true)
    (hv : findChild e1 contentTag = some v) (hvt : v.text = "")
    (hn : findChild e2 contentTag = none) :
    (contentGet a [GetItem.elem e1]).res = Except.ok (some []) ∧
    (contentGet a [GetItem.elem e2]).res = Except.ok none ∧
    (Except.ok (some []) : Except OpErr (Option (List Nat))) ≠ Except.ok none := by
  refine ⟨?_, ?_, by simp⟩ <;>
    simp [contentGet, h0, h1, h2, hc, hv, hn, hvt, b64decode, b64group]

/-- C6 witness. -/
theorem content_empty_vs_absent_witness :
    (contentGet ⟨some ⟨some "i1", some "ck1", true⟩, some ⟨some "att1", none, none⟩, none⟩
        [GetItem.elem (Elem.mk (qualT "FileAttachment") [] ""
          [Elem.mk contentTag [] "" []])]).res = Except.ok (some []) ∧
    (contentGet ⟨some ⟨some "i1", some "ck1", true⟩, some ⟨some "att1", none, none⟩, none⟩
        [GetItem.elem (Elem.mk (qualT "FileAttachment") [] "" [])]).res = Except.ok none ∧
    (Except.ok (some []) : Except OpErr (Option (List Nat))) ≠ Except.ok none :=
  content_empty_vs_absent ⟨some ⟨some "i1", some "ck1", true⟩, some ⟨some "att1", none, none⟩, none⟩
    ⟨some "i1", some "ck1", true⟩ ⟨some "att1", none, none⟩
    (Elem.mk (qualT "FileAttachment") [] "" [Elem.mk contentTag [] "" []])
    (Elem.mk (qualT "FileAttachment") [] "" [])
    (Elem.mk contentTag [] "" []) rfl rfl rfl rfl (by rfl) rfl rfl

/-- Native field value of the generic marshaling engine: a scalar string
or a list of strings (the two cardinalities of spec section 3). -/
inductive FValue : Type where
  | vStr (s : String)
  | vList (l : List String)
deriving DecidableEq

/-- Declarative description of one field as read by `EWSElement.to_xml`
and `from_xml`: attribute name, wire name, and the read-only /
cardinality / required flags. -/
structure FieldSpec where
  name : String
  wire_name : String
  is_read_only : Bool
  is_list : Bool
  is_required : Bool
deriving DecidableEq

/-- Entity attribute store: one optional value per attribute name,
mirroring the object's slots (unset slots hold None). -/
def Store : Type := String → Option FValue

/-- `setattr` on the entity. -/
def setField (s : Store) (n : String) (v : FValue) : Store :=
  fun m => if m = n then some v else s m

/-- Entity with no field set. -/
def emptyStore : Store := fun _ => none

/-- Apply a sequence of field assignments in order (later assignments to
the same name win, as for repeated `setattr`). -/
def applyAssigns (l : List (String × FValue)) : Store :=
  l.foldl (fun s nv => setField s nv.1 nv.2) emptyStore

/-- Python truthiness of a field value (`not value`): empty string and
empty list are falsy. -/
def isFalsy : FValue → Bool
  | .vStr s => s == ""
  | .vList l => l.isEmpty

/-- Modelled from the spec: the per-field validator `Field.clean` lives
in fields.py (not in src/); for a required field an absent value is a
validation error, otherwise the value is returned unchanged (spec
section 4.1: raise at the clean step if a required value is absent
after defaulting; strings need no coercion). -/
def cleanField (f : FieldSpec) (v : Option FValue) : Except String Unit :=
  if f.is_required && v.isNone then .error f.name else .ok ()

/-- `EWSElement.clean` (properties.py lines 95-99): run every field's
validator against the current value; the written-back value is the
unchanged one, so only the validation outcome matters. -/
def cleanCheck : List FieldSpec → Store → Except String Unit
  | [], _ => .ok ()
  | f :: fs, st =>
    match cleanField f (st f.name) with
    | .error m => .error m
    | .ok () => cleanCheck fs st

/-- Modelled from the spec: the per-field encoder `Field.to_xml` from
fields.py (not in src/): a scalar encodes as a sub-element holding the
value as text, a list as a sub-element holding one child per item
(spec section 4.1, sub-element text and repeated element codecs). -/
def emitField (f : FieldSpec) (v : FValue) : Elem :=
  match v with
  | .vStr s => Elem.mk (qualT f.wire_name) [] s []
  | .vList l => Elem.mk (qualT f.wire_name) [] "" (l.map fun s => Elem.mk (qualT "Value") [] s [])

/-- The field loop of `EWSElement.to_xml` (properties.py lines 115-121):
append one encoded field after the other, skipping read-only fields,
absent values, and falsy list values. -/
def emitLoop (st : Store) : List FieldSpec → List Elem → List Elem
  | [], acc => acc
  | f :: fs, acc =>
    if f.is_read_only then emitLoop st fs acc
    else
      match st f.name with
      | none => emitLoop st fs acc
      | some v =>
        if f.is_list && isFalsy v then emitLoop st fs acc
        else emitLoop st fs (acc ++ [emitField f v])

/-- Class-level constants of a generic entity type: ELEMENT_NAME and
NAMESPACE. -/
structure EntityCls where
  element_name : String
  ns : String
deriving DecidableEq

/-- `EWSElement.to_xml` (properties.py lines 110-122): clean first, then
create the request element and append the encoded fields in declaration
order. -/
def to_xml (c : EntityCls) (schema : List FieldSpec) (st : Store) : Except String Elem :=
  match cleanCheck schema st with
  | .error m => .error m
  | .ok () =>
    .ok (Elem.mk (resolveTag (requestTagOf c.ns c.element_name)) [] "" (emitLoop st schema []))

/-- The emission of a single field, spelled per the claim: skip the field
when it is read-only, its value is absent, or it is a list field with an
empty value; otherwise emit exactly one child.  This is the spec-side
description the encode loop is compared against. -/
def emitAt (st : Store) (f : FieldSpec) : Option Elem :=
  if f.is_read_only then none
  else
    match st f.name with
    | none => none
    | some v => if f.is_list && isFalsy v then none else some (emitField f v)

/-- Spec-side description of the encoded children: one entry per declared
field in declaration order, with the skips of `emitAt`. -/
def emitOrderSpec (st : Store) (schema : List FieldSpec) : List Elem :=
  schema.filterMap (emitAt st)

/-- Modelled from the spec: the per-field decoder `Field.from_xml` from
fields.py (not in src/): search the parent element for the sub-element
with the field's wire name; absence yields None; a scalar field reads
the text, a list field reads the children (spec section 4.1). -/
def parseField (f : FieldSpec) (e : Elem) : Option FValue :=
  match findChild e (qualT f.wire_name) with
  | none => none
  | some c =>
    if f.is_list then some (.vList (c.children.map Elem.text)) else some (.vStr c.text)

/-- `EWSElement.from_xml` (properties.py lines 101-108): assert the
response tag, then build the entity from each field's decode (absent
decodes populate the slot with None through the constructor). -/
def from_xml (c : EntityCls) (schema : List FieldSpec) (e : Elem) : Except String Store :=
  if e.tag = responseTagOf c.ns c.element_name then
    .ok (fun n =>
      match schema.find? (fun f => f.name == n) with
      | some f => parseField f e
      | none => none)
  else .error "tag"

/-- Observation of one decoded slot: `some` of the slot's value when the
decode succeeded, none when the decode raised. -/
def decodeAt (c : EntityCls) (schema : List FieldSpec) (e : Elem) (n : String) :
    Option (Option FValue) :=
  match from_xml c schema e with
  | .error _ => none
  | .ok d => some (d n)

/-- Shape check of a populated value: a scalar field holds a string, a
list field holds a non-empty list. -/
def matchShape (f : FieldSpec) : FValue → Bool
  | .vStr _ => !f.is_list
  | .vList l => f.is_list && !l.isEmpty

/-- A slot is populated with a valid value: present and of the field's
shape (list fields non-empty). -/
def popOk (f : FieldSpec) (ov : Option FValue) : Bool :=
  match ov with
  | some v => matchShape f v
  | none => false

theorem emitLoop_eq_emitOrderSpec (st : Store) (schema : List FieldSpec) :
    ∀ acc : List Elem, emitLoop st schema acc = acc ++ emitOrderSpec st schema := by
  induction schema with
  | nil => intro acc; simp [emitLoop, emitOrderSpec]
  | cons f fs ih =>
    intro acc
    simp only [emitLoop, emitOrderSpec, List.filterMap_cons, emitAt]
    by_cases hro : f.is_read_only
    · simp [hro, ih acc, emitOrderSpec]
    · simp only [hro, if_neg, Bool.false_eq_true, not_false_eq_true, if_false]
      cases hv : st f.name with
      | none => simp [ih acc, emitOrderSpec]
      | some v =>
        by_cases hl : (f.is_list && isFalsy v) = true
        · simp [hl, ih acc, emitOrderSpec]
        · simp [hl, ih (acc ++ [emitField f v]), emitOrderSpec]

theorem cleanCheck_congr (schema : List FieldSpec) (s1 s2 : Store)
    (h : ∀ n, s1 n = s2 n) : cleanCheck schema s1 = cleanCheck schema s2 := by
  induction schema with
  | nil => rfl
  | cons f fs ih => simp only [cleanCheck, h f.name, ih]

theorem emitLoop_congr (schema : List FieldSpec) (s1 s2 : Store)
    (h : ∀ n, s1 n = s2 n) : ∀ acc, emitLoop s1 schema acc = emitLoop s2 schema acc := by
  induction schema with
  | nil => intro acc; rfl
  | cons f fs ih => intro acc; simp only [emitLoop, h f.name, ih]

theorem to_xml_congr (c : EntityCls) (schema : List FieldSpec) (s1 s2 : Store)
    (h : ∀ n, s1 n = s2 n) : to_xml c schema s1 = to_xml c schema s2 := by
  unfold to_xml
  rw [cleanCheck_congr schema s1 s2 h]
  cases cleanCheck schema s2 with
  | error m => rfl
  | ok u => cases u; rw [emitLoop_congr schema s1 s2 h]

theorem setField_swap (s : Store) (a b : String × FValue) (hab : a.1 ≠ b.1) (n : String) :
    setField (setField s a.1 a.2) b.1 b.2 n = setField (setField s b.1 b.2) a.1 a.2 n := by
  unfold setField
  by_cases h1 : n = b.1 <;> by_cases h2 : n = a.1
  · exact absurd (h2.symm.trans h1) hab
  · simp only [if_pos h1, if_neg h2]
  · simp only [if_neg h1, if_pos h2]
  · simp only [if_neg h1, if_neg h2]

theorem foldl_set_congr (l : List (String × FValue)) :
    ∀ (s1 s2 : Store), (∀ n, s1 n = s2 n) → ∀ n,
      (l.foldl (fun s nv => setField s nv.1 nv.2) s1) n
        = (l.foldl (fun s nv => setField s nv.1 nv.2) s2) n := by
  induction l with
  | nil => intro s1 s2 h n; exact h n
  | cons x xs ih =>
    intro s1 s2 h n
    simp only [List.foldl_cons]
    exact ih _ _ (fun m => by unfold setField; rw [h m]) n

theorem foldl_set_perm {l1 l2 : List (String × FValue)} (hp : l1.Perm l2) :
    (l1.map Prod.fst).Nodup → ∀ (s : Store) (n : String),
      (l1.foldl (fun s nv => setField s nv.1 nv.2) s) n
        = (l2.foldl (fun s nv => setField s nv.1 nv.2) s) n := by
  induction hp with
  | nil => intro _ s n; rfl
  | cons x h ih =>
    intro hnd s n
    simp only [List.foldl_cons]
    exact ih (by simpa using hnd.of_cons) _ n
  | swap x y l =>
    intro hnd s n
    simp only [List.foldl_cons]
    have hxy : y.1 ≠ x.1 := by
      simp only [List.map_cons, List.nodup_cons, List.mem_cons, List.mem_map] at hnd
      exact fun h => hnd.1 (Or.inl h)
    exact foldl_set_congr l _ _ (setField_swap s y x hxy) n
  | trans h1 h2 ih1 ih2 =>
    intro hnd s n
    have hm := ((h1.map Prod.fst).nodup_iff).mp hnd
    rw [ih1 hnd s n, ih2 hm s n]

/-- C8: the children emitted by encode are exactly one per declared
field in the declared order, skipping read-only fields, absent values
and empty list values, and the result does not depend on the order in
which the field values were set (any permutation of a duplicate-free
assignment sequence encodes identically). -/
theorem encode_field_order (c : EntityCls) (schema : List FieldSpec)
    (l1 l2 : List (String × FValue)) (e : Elem)
    (hp : l1.Perm l2) (hnd : (l1.map Prod.fst).Nodup)
    (h : to_xml c schema (applyAssigns l1) = Except.ok e) :
    to_xml c schema (applyAssigns l2) = Except.ok e ∧
    e.children = emitOrderSpec (applyAssigns l1) schema := by
  have hpt : ∀ n, applyAssigns l1 n = applyAssigns l2 n :=
    fun n => foldl_set_perm hp hnd emptyStore n
  refine ⟨by rw [← to_xml_congr c schema _ _ hpt]; exact h, ?_⟩
  unfold to_xml at h
  cases hcc : cleanCheck schema (applyAssigns l1) with
  | error m => rw [hcc] at h; cases h
  | ok u =>
    cases u
    rw [hcc] at h
    injection h with he
    subst he
    simp [Elem.children, emitLoop_eq_emitOrderSpec]

/-- C8 witness: a three-field schema with a read-only middle field,
populated by two assignment orders. -/
theorem encode_field_order_witness :
    to_xml ⟨"Attachment", TNS⟩
        [⟨"name", "Name", false, false, false⟩,
         ⟨"size", "Size", true, false, false⟩,
         ⟨"is_inline", "IsInline", false, false, false⟩]
        (applyAssigns [("name", FValue.vStr "x.txt"), ("is_inline", FValue.vStr "true"),
          ("size", FValue.vStr "7")])
      = Except.ok (Elem.mk (qualT "Attachment") [] ""
          [Elem.mk (qualT "Name") [] "x.txt" [], Elem.mk (qualT "IsInline") [] "true" []]) ∧
    (Elem.mk (qualT "Attachment") [] ""
        [Elem.mk (qualT "Name") [] "x.txt" [], Elem.mk (qualT "IsInline") [] "true" []]).children
      = emitOrderSpec
          (applyAssigns [("is_inline", FValue.vStr "true"), ("size", FValue.vStr "7"),
            ("name", FValue.vStr "x.txt")])
          [⟨"name", "Name", false, false, false⟩,
           ⟨"size", "Size", true, false, false⟩,
           ⟨"is_inline", "IsInline", false, false, false⟩] :=
  encode_field_order ⟨"Attachment", TNS⟩
    [⟨"name", "Name", false, false, false⟩,
     ⟨"size", "Size", true, false, false⟩,
     ⟨"is_inline", "IsInline", false, false, false⟩]
    [("is_inline", FValue.vStr "true"), ("size", FValue.vStr "7"),
      ("name", FValue.vStr "x.txt")]
    [("name", FValue.vStr "x.txt"), ("is_inline", FValue.vStr "true"),
      ("size", FValue.vStr "7")]
    (Elem.mk (qualT "Attachment") [] ""
      [Elem.mk (qualT "Name") [] "x.txt" [], Elem.mk (qualT "IsInline") [] "true" []])
    (by decide) (by decide) (by rfl)

theorem str_append_cancel (x a b : String) (h : x ++ a = x ++ b) : a = b := by
  cases x with | mk xd =>
  cases a with | mk ad =>
  cases b with | mk bd =>
  have hd : xd ++ ad = xd ++ bd := congrArg String.data h
  exact congrArg String.mk (List.append_cancel_left hd)

theorem qual_inj {ns a b : String} (h : qual ns a = qual ns b) : a = b := by
  unfold qual at h
  exact str_append_cancel _ _ _ h

theorem resolveTag_t (n : String) : resolveTag ("t:" ++ n) = qual TNS n := by
  cases n with | mk d => rfl

theorem resolveTag_m (n : String) : resolveTag ("m:" ++ n) = qual MNS n := by
  cases n with | mk d => rfl

theorem resolveTag_request (ns n : String) (h : ns = TNS ∨ ns = MNS) :
    resolveTag (requestTagOf ns n) = responseTagOf ns n := by
  rcases h with h | h <;> subst h
  · rw [requestTagOf, if_pos rfl]
    exact resolveTag_t n
  · rw [requestTagOf, if_neg (by decide)]
    exact resolveTag_m n

theorem find_by_name (f : FieldSpec) : ∀ (schema : List FieldSpec), f ∈ schema →
    (schema.map FieldSpec.name).Nodup →
    schema.find? (fun g => g.name == f.name) = some f := by
  intro schema
  induction schema with
  | nil => intro h; cases h
  | cons g fs ih =>
    intro hmem hnd
    simp only [List.map_cons, List.nodup_cons, List.mem_map] at hnd
    rcases List.mem_cons.mp hmem with heq | hmem'
    · subst heq
      rw [List.find?_cons_of_pos _ (by simp)]
    · have hne : (g.name == f.name) = false := by
        have : g.name ≠ f.name := fun he => hnd.1 ⟨f, hmem', he.symm⟩
        simpa using this
      rw [List.find?_cons_of_neg _ (by simp [hne])]
      exact ih hmem' (by simpa using hnd.2)

theorem emitAt_tag (st : Store) (f : FieldSpec) (e : Elem) (h : emitAt st f = some e) :
    e.tag = qualT f.wire_name := by
  unfold emitAt at h
  split at h
  · cases h
  · split at h
    · cases h
    · rename_i v heq
      split at h
      · cases h
      · injection h with he
        subst he
        cases v <;> rfl

theorem find_emitted_none (st : Store) (w : String) : ∀ (schema : List FieldSpec),
    (∀ g ∈ schema, g.wire_name ≠ w) →
    (emitOrderSpec st schema).find? (fun c => c.tag == qualT w) = none := by
  intro schema
  induction schema with
  | nil => intro _; rfl
  | cons g fs ih =>
    intro hall
    simp only [emitOrderSpec, List.filterMap_cons]
    cases hA : emitAt st g with
    | none => exact ih fun g' hg' => hall g' (List.mem_cons_of_mem _ hg')
    | some e =>
      rw [List.find?_cons_of_neg]
      · exact ih fun g' hg' => hall g' (List.mem_cons_of_mem _ hg')
      · rw [emitAt_tag st g e hA]
        simp only [beq_iff_eq]
        intro hq
        exact hall g (List.mem_cons_self g fs) (qual_inj hq)

theorem find_emitted (st : Store) (f : FieldSpec) : ∀ (schema : List FieldSpec),
    f ∈ schema → (schema.map FieldSpec.wire_name).Nodup →
    (emitOrderSpec st schema).find? (fun c => c.tag == qualT f.wire_name) = emitAt st f := by
  intro schema
  induction schema with
  | nil => intro h; cases h
  | cons g fs ih =>
    intro hmem hnd
    simp only [List.map_cons, List.nodup_cons, List.mem_map] at hnd
    have hnd2 : (fs.map FieldSpec.wire_name).Nodup := by simpa using hnd.2
    simp only [emitOrderSpec, List.filterMap_cons]
    rcases List.mem_cons.mp hmem with heq | hmem'
    · subst heq
      cases hA : emitAt st f with
      | some e =>
        rw [List.find?_cons_of_pos _ (by rw [emitAt_tag st f e hA]; simp)]
      | none =>
        exact find_emitted_none st f.wire_name fs
          fun g' hg' he => hnd.1 ⟨g', hg', he⟩
    · have hgf : g.wire_name ≠ f.wire_name :=
        fun he => hnd.1 ⟨f, hmem', he.symm⟩
      cases hA : emitAt st g with
      | none => exact ih hmem' hnd2
      | some e =>
        rw [List.find?_cons_of_neg]
        · exact ih hmem' hnd2
        · rw [emitAt_tag st g e hA]
          simp only [beq_iff_eq]
          intro hq
          exact hgf (qual_inj hq)

theorem emitAt_populated (st : Store) (f : FieldSpec) (v : FValue)
    (hv : st f.name = some v) (hs : matchShape f v = true) (hro : f.is_read_only = false) :
    emitAt st f = some (emitField f v) := by
  unfold emitAt
  rw [if_neg (by rw [hro]; exact Bool.false_ne_true), hv]
  cases v with
  | vStr s =>
    have hl : f.is_list = false := by simpa [matchShape] using hs
    simp [hl]
  | vList l =>
    have hl : isFalsy (FValue.vList l) = false := by
      simp only [matchShape, Bool.and_eq_true] at hs
      simpa [isFalsy] using hs.2
    simp [hl]

theorem parseField_emit (f : FieldSpec) (v : FValue) (e : Elem)
    (he : findChild e (qualT f.wire_name) = some (emitField f v))
    (hs : matchShape f v = true) : parseField f e = some v := by
  unfold parseField
  rw [he]
  cases v with
  | vStr s =>
    have hl : f.is_list = false := by simpa [matchShape] using hs
    simp [hl, emitField, Elem.text]
  | vList l =>
    have hl : f.is_list = true := by
      simp only [matchShape, Bool.and_eq_true] at hs
      exact hs.1
    simp [hl, emitField, Elem.children, Elem.text, List.map_map, Function.comp_def]

/-- C9 (amended): for a schema with duplicate-free attribute and wire
names under one of the two fixed namespaces, when every declared field
is populated with a valid value of its shape (list fields non-empty),
decoding the encoded element reproduces every writable field's value
exactly, while read-only fields decode to absent because encode skips
them. -/
theorem roundtrip_writable (c : EntityCls) (schema : List FieldSpec) (st : Store) (e : Elem)
    (hns : c.ns = TNS ∨ c.ns = MNS)
    (hnodupn : (schema.map FieldSpec.name).Nodup)
    (hnodupw : (schema.map FieldSpec.wire_name).Nodup)
    (hpop : ∀ f ∈ schema, popOk f (st f.name) = true)
    (henc : to_xml c schema st = Except.ok e)
    (f : FieldSpec) (hf : f ∈ schema) :
    (f.is_read_only = false → decodeAt c schema e f.name = some (st f.name)) ∧
    (f.is_read_only = true → decodeAt c schema e f.name = some none) := by
  unfold to_xml at henc
  cases hcc : cleanCheck schema st with
  | error m => rw [hcc] at henc; cases henc
  | ok u =>
    cases u
    rw [hcc] at henc
    injection henc with he
    subst he
    have htag : (Elem.mk (resolveTag (requestTagOf c.ns c.element_name)) [] ""
        (emitLoop st schema [])).tag = responseTagOf c.ns c.element_name := by
      simp [Elem.tag, resolveTag_request c.ns c.element_name hns]
    have hchild : (Elem.mk (resolveTag (requestTagOf c.ns c.element_name)) [] ""
        (emitLoop st schema [])).children = emitOrderSpec st schema := by
      simp [Elem.children, emitLoop_eq_emitOrderSpec]
    unfold decodeAt from_xml
    rw [if_pos htag]
    simp only
    rw [find_by_name f schema hf hnodupn]
    have hfind : ∀ r, emitAt st f = r →
        findChild (Elem.mk (resolveTag (requestTagOf c.ns c.element_name)) [] ""
          (emitLoop st schema [])) (qualT f.wire_name) = r := by
      intro r hr
      unfold findChild
      rw [hchild, find_emitted st f schema hf hnodupw, hr]
    constructor
    · intro hro
      have hpf := hpop f hf
      cases hv : st f.name with
      | none => rw [hv] at hpf; simp [popOk] at hpf
      | some v =>
        rw [hv] at hpf
        have hs : matchShape f v = true := by simpa [popOk] using hpf
        show some (parseField f (Elem.mk (resolveTag (requestTagOf c.ns c.element_name)) [] ""
          (emitLoop st schema []))) = some (some v)
        rw [parseField_emit f v _ (hfind _ (emitAt_populated st f v hv hs hro)) hs]
    · intro hro
      have hA : emitAt st f = none := by unfold emitAt; rw [if_pos hro]
      show some (parseField f (Elem.mk (resolveTag (requestTagOf c.ns c.element_name)) [] ""
        (emitLoop st schema []))) = some none
      unfold parseField
      rw [hfind none hA]

/-- C9 counterexample: an entity whose single declared field is
read-only and populated does not survive the round trip: encode skips
the field, so decode yields an absent value where the original held
one. -/
theorem roundtrip_cex :
    to_xml ⟨"Attachment", TNS⟩ [⟨"size", "Size", true, false, false⟩]
        (setField emptyStore "size" (FValue.vStr "7"))
      = Except.ok (Elem.mk (qualT "Attachment") [] "" []) ∧
    decodeAt ⟨"Attachment", TNS⟩ [⟨"size", "Size", true, false, false⟩]
        (Elem.mk (qualT "Attachment") [] "" []) "size" = some none ∧
    setField emptyStore "size" (FValue.vStr "7") "size" = some (FValue.vStr "7") :=
  ⟨rfl, rfl, rfl⟩

/-- C9 witness: a schema with a scalar, a list and a read-only field,
fully populated; the writable fields decode back to their exact values
and the read-only field decodes to absent. -/
theorem roundtrip_writable_witness :
    (decodeAt ⟨"Mailbox", TNS⟩
        [⟨"name", "Name", false, false, true⟩,
         ⟨"tags", "Tags", false, true, false⟩,
         ⟨"size", "Size", true, false, false⟩]
        (Elem.mk (qualT "Mailbox") [] ""
          [Elem.mk (qualT "Name") [] "bob" [],
           Elem.mk (qualT "Tags") [] ""
             [Elem.mk (qualT "Value") [] "a" [], Elem.mk (qualT "Value") [] "b" []]])
        "tags"
      = some (some (FValue.vList ["a", "b"]))) ∧
    (decodeAt ⟨"Mailbox", TNS⟩
        [⟨"name", "Name", false, false, true⟩,
         ⟨"tags", "Tags", false, true, false⟩,
         ⟨"size", "Size", true, false, false⟩]
        (Elem.mk (qualT "Mailbox") [] ""
          [Elem.mk (qualT "Name") [] "bob" [],
           Elem.mk (qualT "Tags") [] ""
             [Elem.mk (qualT "Value") [] "a" [], Elem.mk (qualT "Value") [] "b" []]])
        "size"
      = some none) := by
  have h := roundtrip_writable ⟨"Mailbox", TNS⟩
    [⟨"name", "Name", false, false, true⟩,
     ⟨"tags", "Tags", false, true, false⟩,
     ⟨"size", "Size", true, false, false⟩]
    (applyAssigns [("name", FValue.vStr "bob"), ("size", FValue.vStr "9"),
      ("tags", FValue.vList ["a", "b"])])
    (Elem.mk (qualT "Mailbox") [] ""
      [Elem.mk (qualT "Name") [] "bob" [],
       Elem.mk (qualT "Tags") [] ""
         [Elem.mk (qualT "Value") [] "a" [], Elem.mk (qualT "Value") [] "b" []]])
    (Or.inl rfl) (by decide) (by decide) (by decide) (by rfl)
  refine ⟨?_, ?_⟩
  · have := (h ⟨"tags", "Tags", false, true, false⟩ (by decide)).1 rfl
    rw [this]
    rfl
  · exact (h ⟨"size", "Size", true, false, false⟩ (by decide)).2 rfl

end EWS
